import Mathlib

/-!
Verification of the odtools convention layer (src/odtools/init module).

The module is glue code over an external hierarchical attributed store
(the stappy library).  We embed it shallowly:

* a stored value is a string, an integer, or an ordered dictionary
  (the inductive `Value`);
* an attribute mapping (`AttrDict`) is an ordered association list, as a
  Python dict preserves insertion order; `adLookup` is item access,
  `adSet` is item assignment (update in place, else append);
* the store's path-delimited keys (the Python code always builds them
  with f-strings of the form {a}/{b}) are modelled as lists of path
  segments, resolved by `getPath`/`setPath`; a Python key string
  "a/b" corresponds to the path [a, b] as long as the individual
  segments contain no slash, which theorems assume explicitly where a
  segment is universally quantified;
* an entry of the store (`Entry`) carries its attribute mapping, its
  named children, its named datasets (item assignment parent[name] =
  value), the names of the files that exist in its directory, and its
  file-system path (parent._repr);
* Python exceptions are modelled with `Except ODError`; a fallible
  helper returns the updated entries on success, so the error case
  carries no state change, which models that the checks run before any
  write;
* where the Python code would raise on malformed data (for instance
  entry.attrs[METADATA_ENTRY] when the metadata attribute is missing),
  the Bool-valued embedding of a predicate returns a default and the
  theorems that need fidelity carry an explicit well-formedness
  hypothesis.
-/

set_option maxHeartbeats 1000000

namespace ODTools

/-! Module-level constants, from the source verbatim. -/

def METADATA_ENTRY : String := "metadata"

def SUBJECT_KEY : String := "subject"

def DATE_KEY : String := "date"

def SESSION_KEY : String := "session_number"

def DOMAIN_KEY : String := "domain"

def RUN_KEY : String := "run"

def TYPE_KEY : String := "type"

def DEFINITION_KEY : String := "definition"

def VALUE_KEY : String := "value"

def UNIT_KEY : String := "unit"

def DATASET_TYPE : String := "dataset"

def FILE_TYPE : String := "file"

/-- A value stored in an attribute mapping or as a dataset. -/
inductive Value : Type where
  | str : String → Value
  | int : Int → Value
  | dict : List (String × Value) → Value

/-- An ordered attribute dictionary (Python dict preserves insertion order). -/
abbrev AttrDict := List (String × Value)

/-- Item access d[k] on an ordered dictionary: first matching key. -/
def adLookup : AttrDict → String → Option Value
  | [], _ => none
  | (k, v) :: rest, key => if k = key then some v else adLookup rest key

/-- Item assignment d[k] = v: update in place if present, else append. -/
def adSet : AttrDict → String → Value → AttrDict
  | [], key, v => [(key, v)]
  | (k, w) :: rest, key, v =>
    if k = key then (k, v) :: rest else (k, w) :: adSet rest key v

/-- d.keys() of an ordered dictionary. -/
def adKeys (d : AttrDict) : List String := d.map Prod.fst

/-- Reading a path-delimited key of the store: descend through nested
dictionaries; absent keys or non-dictionary intermediate values give none
(the Python store would raise a key error there). -/
def getPath : List String → AttrDict → Option Value
  | [], _ => none
  | [k], d => adLookup d k
  | k :: k2 :: rest, d =>
    match adLookup d k with
    | some (Value.dict sub) => getPath (k2 :: rest) sub
    | _ => none

/-- Writing a path-delimited key of the store: descend through nested
dictionaries, materialising empty ones along the way. -/
def setPath : List String → Value → AttrDict → AttrDict
  | [], _, d => d
  | [k], v, d => adSet d k v
  | k :: k2 :: rest, v, d =>
    adSet d k (Value.dict (setPath (k2 :: rest) v
      (match adLookup d k with
       | some (Value.dict s) => s
       | _ => [])))

/-- An entry of the hierarchical store: attributes, named children, named
datasets, names of files existing in its directory, and its file-system
path (the source's parent._repr). -/
inductive Entry : Type where
  | mk (attrs : AttrDict) (children : List (String × Entry))
       (datasets : AttrDict) (files : List String) (reprPath : String)

def Entry.attrs : Entry → AttrDict
  | .mk a _ _ _ _ => a

def Entry.children : Entry → List (String × Entry)
  | .mk _ c _ _ _ => c

def Entry.datasets : Entry → AttrDict
  | .mk _ _ d _ _ => d

def Entry.files : Entry → List String
  | .mk _ _ _ f _ => f

def Entry.reprPath : Entry → String
  | .mk _ _ _ _ r => r

@[simp] theorem Entry.attrs_mk (a c d f r) : (Entry.mk a c d f r).attrs = a := rfl

@[simp] theorem Entry.children_mk (a c d f r) : (Entry.mk a c d f r).children = c := rfl

@[simp] theorem Entry.datasets_mk (a c d f r) : (Entry.mk a c d f r).datasets = d := rfl

@[simp] theorem Entry.files_mk (a c d f r) : (Entry.mk a c d f r).files = f := rfl

@[simp] theorem Entry.reprPath_mk (a c d f r) : (Entry.mk a c d f r).reprPath = r := rfl

/-- entry.attrs[path] = v on an entry. -/
def Entry.setAttr (e : Entry) (p : List String) (v : Value) : Entry :=
  Entry.mk (setPath p v e.attrs) e.children e.datasets e.files e.reprPath

/-- entry.child_names(). -/
def Entry.childNames (e : Entry) : List String := e.children.map Prod.fst

/-- The keys of entry.attrs[METADATA_ENTRY].  The Python code reads this
mapping directly (raising a key error if the metadata attribute is missing
or an attribute error if it is not a dictionary); the embedding returns []
in those cases, and theorems that depend on the distinction carry an
Entry.hasMetadataDict hypothesis. -/
def Entry.metaKeys (e : Entry) : List String :=
  match adLookup e.attrs METADATA_ENTRY with
  | some (Value.dict m) => adKeys m
  | _ => []

/-- The metadata attribute is present and is a dictionary, so that the
ontology predicates run without raising in Python. -/
def Entry.hasMetadataDict (e : Entry) : Bool :=
  match adLookup e.attrs METADATA_ENTRY with
  | some (Value.dict _) => true
  | _ => false

/-! Ontological structure: the predicate layer of the source. -/

def within_subject (entry : Entry) : Bool := (entry.metaKeys).contains SUBJECT_KEY

def is_root (entry : Entry) : Bool := !(within_subject entry)

def within_date (entry : Entry) : Bool := (entry.metaKeys).contains DATE_KEY

def is_subject (entry : Entry) : Bool := within_subject entry && !(within_date entry)

def within_session (entry : Entry) : Bool := (entry.metaKeys).contains SESSION_KEY

def is_date (entry : Entry) : Bool := within_date entry && !(within_session entry)

def within_domain (entry : Entry) : Bool := (entry.metaKeys).contains DOMAIN_KEY

def is_run (entry : Entry) : Bool := (entry.metaKeys).contains RUN_KEY

def is_group (entry : Entry) : Bool := within_domain entry || is_run entry

def is_session (entry : Entry) : Bool := within_session entry && !(is_group entry)

def is_domain (entry : Entry) : Bool := within_domain entry && !(is_run entry)

def is_formatting_attribute (attrname : String) : Bool :=
  (["type", "dtype", "shape", "compression", "byteorder", "definition", "unit"]).contains attrname

def is_subentry (entry : Entry) (name : String) : Bool := (entry.childNames).contains name

def is_dataset_type (entry : Entry) (name : String) : Bool := (adKeys entry.datasets).contains name

/-- A Python exception relevant to this module. -/
inductive ODError : Type where
  | valueError (msg : String)
  | keyError (key : String)
  | attributeError (name : String)
  | fileNotFoundError (path : String)

/-- TYPE_KEY in entry.attrs[name].keys() and entry.attrs[name][TYPE_KEY] == FILE_TYPE.
When entry.attrs[name] is missing Python raises a KeyError, and when its
value is not a dictionary the attribute access entry.attrs[name].keys()
raises an AttributeError; the embedding returns the corresponding error.
When the type key holds a non-string value, the == comparison with the
string FILE_TYPE is simply False. -/
def is_file_type (entry : Entry) (name : String) : Except ODError Bool :=
  match adLookup entry.attrs name with
  | none => Except.error (ODError.keyError name)
  | some (Value.dict sub) =>
    Except.ok (match adLookup sub TYPE_KEY with
      | some (Value.str t) => t == FILE_TYPE
      | _ => false)
  | some _ => Except.error (ODError.attributeError name)

/-- not is_dataset_type and not is_file_type; the Python short-circuiting
and does not evaluate is_file_type when the name is a dataset name. -/
def is_attribute (entry : Entry) (name : String) : Except ODError Bool :=
  if is_dataset_type entry name then Except.ok false
  else (is_file_type entry name).map (fun b => !b)

/-- Well-formed metadata in the sense of claim C1: run or domain implies
session_number, session_number implies date, date implies subject. -/
def wellFormedMeta (e : Entry) : Bool :=
  (!((e.metaKeys).contains RUN_KEY || (e.metaKeys).contains DOMAIN_KEY)
      || (e.metaKeys).contains SESSION_KEY) &&
  ((!((e.metaKeys).contains SESSION_KEY) || (e.metaKeys).contains DATE_KEY) &&
   (!((e.metaKeys).contains DATE_KEY) || (e.metaKeys).contains SUBJECT_KEY))

theorem ontology_count_bool (s d n dm r : Bool)
    (hw : ((!(r || dm) || n) && ((!n || d) && (!d || s))) = true) :
    (([!s, s && !d, d && !n, n && !(dm || r), dm && !r, r]).count true) = 1 := by
  revert hw
  cases s <;> cases d <;> cases n <;> cases dm <;> cases r <;> decide

/-- C1: for every entry whose metadata is well-formed (run or domain present
implies session_number present, session_number implies date, date implies
subject), exactly one of the six ontology predicates is_root, is_subject,
is_date, is_session, is_domain, is_run returns true on that entry. -/
theorem ontology_exclusive_exhaustive (e : Entry)
    (hm : e.hasMetadataDict = true) (hw : wellFormedMeta e = true) :
    (([is_root e, is_subject e, is_date e, is_session e, is_domain e, is_run e]).count true) = 1 := by
  have h := ontology_count_bool ((e.metaKeys).contains SUBJECT_KEY)
      ((e.metaKeys).contains DATE_KEY) ((e.metaKeys).contains SESSION_KEY)
      ((e.metaKeys).contains DOMAIN_KEY) ((e.metaKeys).contains RUN_KEY)
      (by simpa [wellFormedMeta] using hw)
  simpa [is_root, is_subject, is_date, is_session, is_domain, is_run, within_subject,
    within_date, within_session, within_domain, is_group] using h

/-- A root entry with metadata present: the concrete input for the C1 witness. -/
def entryC1 : Entry :=
  Entry.mk [("metadata", Value.dict [("subject", Value.str "S1")])] [] [] [] "root"

/-- Witness for C1 at a concrete subject-level entry. -/
theorem ontology_exclusive_exhaustive_witness :
    entryC1.hasMetadataDict = true ∧ wellFormedMeta entryC1 = true ∧
    (([is_root entryC1, is_subject entryC1, is_date entryC1, is_session entryC1,
       is_domain entryC1, is_run entryC1]).count true) = 1 :=
  ⟨rfl, rfl, ontology_exclusive_exhaustive entryC1 rfl rfl⟩

/-! The manipulation helpers. -/

/-- The computation raised a ValueError (of any message). -/
def isValueError {α : Type} : Except ODError α → Bool
  | Except.error (ODError.valueError _) => true
  | _ => false

/-- An event observable on an entry's attribute mapping: a write of a
top-level key, or a commit. -/
inductive AttrEvent : Type where
  | write (key : String) (v : Value)
  | commit

def AttrEvent.isCommit : AttrEvent → Bool
  | AttrEvent.commit => true
  | _ => false

/-- The write loop of copy_attributes: dst.attrs[key] = deepcopy(val) for
each item of src.attrs in order (deepcopy is the identity on immutable
model values). -/
def write_all : AttrDict → AttrDict → AttrDict
  | [], d => d
  | kv :: rest, d => write_all rest (adSet d kv.1 kv.2)

/-- copy_attributes(src, dst): write every item of src.attrs into
dst.attrs, then commit.  Returns the updated destination entry together
with the trace of attribute events it performed. -/
def copy_attributes (src dst : Entry) : Entry × List AttrEvent :=
  (Entry.mk (write_all src.attrs dst.attrs) dst.children dst.datasets dst.files dst.reprPath,
   (src.attrs.map (fun kv => AttrEvent.write kv.1 kv.2)) ++ [AttrEvent.commit])

/-- parent.create[name]: a fresh child entry of the store, with empty
attributes, under the parent's path. -/
def createChild (parent : Entry) (name : String) : Entry :=
  Entry.mk [] [] [] [] (parent.reprPath ++ "/" ++ name)

/-- Attach a (fully updated) child under the parent.  In Python the child
object is aliased in the store, so mutations of the child after creation
are visible through the parent; the embedding attaches the final child. -/
def Entry.withChildAdded (e : Entry) (name : String) (c : Entry) : Entry :=
  Entry.mk e.attrs (e.children ++ [(name, c)]) e.datasets e.files e.reprPath

/-- add_subject(root_entry, name): returns the updated root and the new
subject entry. -/
def add_subject (root_entry : Entry) (name : Option String) : Except ODError (Entry × Entry) :=
  match name with
  | none => Except.error (ODError.valueError "name cannot be None")
  | some nm =>
    if !(is_root root_entry) then
      Except.error (ODError.valueError "must be called with root entry")
    else
      let child1 := (copy_attributes root_entry (createChild root_entry nm)).1
      let child2 := child1.setAttr [METADATA_ENTRY, SUBJECT_KEY] (Value.str nm)
      Except.ok (root_entry.withChildAdded nm child2, child2)

/-- add_date(subject_entry, date): returns the updated subject and the new
date entry. -/
def add_date (subject_entry : Entry) (date : Option String) : Except ODError (Entry × Entry) :=
  match date with
  | none => Except.error (ODError.valueError "date cannot be None")
  | some dt =>
    if !(is_subject subject_entry) then
      Except.error (ODError.valueError "must be called with subject entry")
    else
      let child1 := (copy_attributes subject_entry (createChild subject_entry dt)).1
      let child2 := child1.setAttr [METADATA_ENTRY, DATE_KEY] (Value.str dt)
      Except.ok (subject_entry.withChildAdded dt child2, child2)

/-- Python int(s) on a decimal string literal: strip surrounding
whitespace, an optional sign, then a nonempty run of decimal digits.
(Python 3 additionally allows underscores between digits; the sessions
this module names do not use them.) -/
def parseDigitsAux : List Char → Nat → Option Nat
  | [], acc => some acc
  | c :: rest, acc =>
    if c.isDigit then parseDigitsAux rest (acc * 10 + (c.toNat - 48)) else none

def pyParseInt (s : String) : Option Int :=
  let t := ((s.data.dropWhile Char.isWhitespace).reverse.dropWhile Char.isWhitespace).reverse
  match t with
  | [] => none
  | c :: rest =>
    if c = '-' then
      match rest with
      | [] => none
      | _ => (parseDigitsAux rest 0).map (fun n => -(n : Int))
    else if c = '+' then
      match rest with
      | [] => none
      | _ => (parseDigitsAux rest 0).map (fun n => (n : Int))
    else (parseDigitsAux t 0).map (fun n => (n : Int))

/-- add_session(date_entry, number): parses the number, then creates the
session entry named str(number); returns the updated date entry and the
new session entry. -/
def add_session (date_entry : Entry) (number : Option String) : Except ODError (Entry × Entry) :=
  match number with
  | none => Except.error (ODError.valueError "number cannot be None")
  | some numstr =>
    if !(is_date date_entry) then
      Except.error (ODError.valueError "must be called with date entry")
    else
      match pyParseInt numstr with
      | none => Except.error (ODError.valueError "number cannot be parsed as integer")
      | some n =>
        let child1 := (copy_attributes date_entry (createChild date_entry (toString n))).1
        let child2 := child1.setAttr [METADATA_ENTRY, SESSION_KEY] (Value.int n)
        Except.ok (date_entry.withChildAdded (toString n) child2, child2)

/-- add_group(parent, name, key, definition): note that the structural
precondition on the parent is commented out in the source; the group is
created for any parent.  Returns the updated parent and the new group. -/
def add_group (parent : Entry) (name key : Option String) (defn : Value) :
    Except ODError (Entry × Entry) :=
  match name with
  | none => Except.error (ODError.valueError "name cannot be None")
  | some nm =>
    match key with
    | none => Except.error (ODError.valueError "key cannot be None for a group")
    | some ky =>
      let child0 := createChild parent nm
      let child1 :=
        match adLookup parent.attrs METADATA_ENTRY with
        | some v => child0.setAttr [METADATA_ENTRY] v
        | none => child0
      let child2 := child1.setAttr [METADATA_ENTRY, ky] defn
      let parent2 := (parent.withChildAdded nm child2).setAttr [nm, DEFINITION_KEY] defn
      Except.ok (parent2, child2)

/-- add_domain(parent, name, definition). -/
def add_domain (parent : Entry) (name : Option String) (defn : Value) :
    Except ODError (Entry × Entry) :=
  add_group parent name (some DOMAIN_KEY) defn

/-- add_run(parent, name, definition): note that the structural
precondition on the parent is commented out in the source. -/
def add_run (parent : Entry) (name : Option String) (defn : Value) :
    Except ODError (Entry × Entry) :=
  add_group parent name (some RUN_KEY) defn

/-- The name part of a file-system path (pathlib Path.name): the segment
after the last slash. -/
def basenameAux : List Char → List Char → List Char
  | [], acc => acc
  | c :: rest, acc => if c = '/' then basenameAux rest [] else basenameAux rest (acc ++ [c])

def basename (s : String) : String := String.mk (basenameAux s.data [])

/-- add_filepath(parent, filename, definition): writes the definition and
file-type attributes under the file's name and returns the updated parent
together with the file's path.  (The file itself is written by the caller.) -/
def add_filepath (parent : Entry) (filename : Option String) (defn : Value) :
    Except ODError (Entry × String) :=
  match filename with
  | none => Except.error (ODError.valueError "filename cannot be None")
  | some fn =>
    let file_path := parent.reprPath ++ "/" ++ fn
    let nm := basename fn
    let parent1 := (parent.setAttr [nm, DEFINITION_KEY] defn).setAttr [nm, TYPE_KEY] (Value.str FILE_TYPE)
    Except.ok (parent1, file_path)

/-- get_filepath(parent, filename): the path of an existing file under the
parent's directory. -/
def get_filepath (parent : Entry) (filename : Option String) : Except ODError String :=
  match filename with
  | none => Except.error (ODError.valueError "filename cannot be None")
  | some fn =>
    let file_path := parent.reprPath ++ "/" ++ fn
    if !(parent.files.contains fn) then Except.error (ODError.fileNotFoundError file_path)
    else Except.ok file_path

/-- add_dataset(parent, name, value, definition, unit): stores the dataset
and its formatting attributes, then commits.  Returns the updated parent. -/
def add_dataset (parent : Entry) (name : Option String) (value defn unit : Value) :
    Except ODError Entry :=
  match name with
  | none => Except.error (ODError.valueError "name cannot be None")
  | some nm =>
    let p1 := Entry.mk parent.attrs parent.children (adSet parent.datasets nm value)
      parent.files parent.reprPath
    Except.ok (((p1.setAttr [nm, DEFINITION_KEY] defn).setAttr [nm, UNIT_KEY] unit).setAttr
      [nm, TYPE_KEY] (Value.str DATASET_TYPE))

/-- The attribute-copying loop shared verbatim by copy_dataset and
copy_file in the source: for each key of source.attrs[name] that is not a
formatting attribute, write dest.attrs[destname + slash + key] =
deepcopy(source.attrs[name + slash + key]). -/
def copy_nonformatting (source : Entry) (name destname : String) :
    AttrDict → Entry → Except ODError Entry
  | [], d => Except.ok d
  | kv :: rest, d =>
    if is_formatting_attribute kv.1 then copy_nonformatting source name destname rest d
    else
      match getPath [name, kv.1] source.attrs with
      | some v => copy_nonformatting source name destname rest (d.setAttr [destname, kv.1] v)
      | none => Except.error (ODError.keyError (name ++ "/" ++ kv.1))

/-- copy_dataset(source, dest, name, destname): add the dataset under dest
with source's definition and unit, then copy the non-formatting attributes. -/
def copy_dataset (source dest : Entry) (name : String) (destname? : Option String) :
    Except ODError Entry :=
  let destname := destname?.getD name
  match adLookup source.datasets name with
  | none => Except.error (ODError.keyError name)
  | some sval =>
    match getPath [name, DEFINITION_KEY] source.attrs with
    | none => Except.error (ODError.keyError (name ++ "/" ++ DEFINITION_KEY))
    | some sdef =>
      match getPath [name, UNIT_KEY] source.attrs with
      | none => Except.error (ODError.keyError (name ++ "/" ++ UNIT_KEY))
      | some sunit =>
        match add_dataset dest (some destname) sval sdef sunit with
        | Except.error e => Except.error e
        | Except.ok dest1 =>
          match adLookup source.attrs name with
          | some (Value.dict sub) => copy_nonformatting source name destname sub dest1
          | _ => Except.error (ODError.keyError name)

/-- copy_file(source, dest, name, destname): register the file under dest
with source's definition, copy the file itself, then copy the
non-formatting attributes. -/
def copy_file (source dest : Entry) (name : String) (destname? : Option String) :
    Except ODError Entry :=
  let destname := destname?.getD name
  let sourcepath := source.reprPath ++ "/" ++ name
  match getPath [name, DEFINITION_KEY] source.attrs with
  | none => Except.error (ODError.keyError (name ++ "/" ++ DEFINITION_KEY))
  | some sdef =>
    match add_filepath dest (some destname) sdef with
    | Except.error e => Except.error e
    | Except.ok (dest1, _destpath) =>
      if !(source.files.contains name) then Except.error (ODError.fileNotFoundError sourcepath)
      else
        let dest2 := Entry.mk dest1.attrs dest1.children dest1.datasets
          (dest1.files ++ [basename destname]) dest1.reprPath
        match adLookup source.attrs name with
        | some (Value.dict sub) => copy_nonformatting source name destname sub dest2
        | _ => Except.error (ODError.keyError name)

/-- The loop of copy_children over the keys of source.attrs.  For a
non-dataset name, the elif evaluates is_file_type, which raises when the
attribute value is not a dictionary; the raise aborts the loop. -/
def copy_children_loop (source : Entry) : AttrDict → Entry → Except ODError Entry
  | [], d => Except.ok d
  | kv :: rest, d =>
    if is_dataset_type source kv.1 then
      match copy_dataset source d kv.1 none with
      | Except.ok d1 => copy_children_loop source rest d1
      | Except.error e => Except.error e
    else
      match is_file_type source kv.1 with
      | Except.error e => Except.error e
      | Except.ok ft =>
        if ft then
          match copy_file source d kv.1 none with
          | Except.ok d1 => copy_children_loop source rest d1
          | Except.error e => Except.error e
        else if kv.1 = METADATA_ENTRY then copy_children_loop source rest d
        else
          match adLookup source.attrs kv.1 with
          | some v => copy_children_loop source rest (d.setAttr [kv.1] v)
          | none => Except.error (ODError.keyError kv.1)

/-- copy_children(source, dest): copy every key of source.attrs to dest as
a dataset, a file, or a plain attribute, skipping the metadata key. -/
def copy_children (source dest : Entry) : Except ODError Entry :=
  copy_children_loop source source.attrs dest

/-! The reading iterators.  Python generators run lazily; the eager
embedding returns the full list of yields, or the error the first
iteration would raise. -/

/-- A yield key of the iterators: a bare string or a tuple of strings. -/
inductive PathKey : Type where
  | str : String → PathKey
  | tup : List String → PathKey

/-- entry[name] for a child entry. -/
def childLookup : List (String × Entry) → String → Option Entry
  | [], _ => none
  | (k, c) :: rest, key => if k = key then some c else childLookup rest key

/-- iter_subjects(entry). -/
def iter_subjects (entry : Entry) : Except ODError (List (String × Entry)) :=
  if !(is_root entry) then
    Except.error (ODError.valueError "iter_subjects() must be called with the root entry")
  else
    entry.childNames.mapM (fun n =>
      match childLookup entry.children n with
      | some c => Except.ok (n, c)
      | none => Except.error (ODError.keyError n))

/-- iter_dates(entry). -/
def iter_dates (entry : Entry) : Except ODError (List (PathKey × Entry)) :=
  if is_root entry then
    match iter_subjects entry with
    | Except.error e => Except.error e
    | Except.ok subs =>
      (subs.mapM (fun (sn : String × Entry) =>
        sn.2.childNames.mapM (fun dv =>
          match childLookup sn.2.children dv with
          | some d => Except.ok (PathKey.tup [sn.1, dv], d)
          | none => Except.error (ODError.keyError dv)))).map List.flatten
  else if is_subject entry then
    entry.childNames.mapM (fun dv =>
      match childLookup entry.children dv with
      | some d => Except.ok (PathKey.str dv, d)
      | none => Except.error (ODError.keyError dv))
  else
    Except.error (ODError.valueError "iter_dates() must be called with a root or subject entry.")

/-- iter_sessions(entry). -/
def iter_sessions (entry : Entry) : Except ODError (List (PathKey × Entry)) :=
  if within_date entry then
    if within_session entry then
      Except.error (ODError.valueError "iter_sessions() must be called with a root/subject/date entry.")
    else
      entry.childNames.mapM (fun sn =>
        match childLookup entry.children sn with
        | some c => Except.ok (PathKey.str sn, c)
        | none => Except.error (ODError.keyError sn))
  else
    match iter_dates entry with
    | Except.error e => Except.error e
    | Except.ok dates =>
      (dates.mapM (fun (pd : PathKey × Entry) =>
        let path := match pd.1 with
          | PathKey.tup l => l
          | PathKey.str s => [s]
        pd.2.childNames.mapM (fun sn =>
          match childLookup pd.2.children sn with
          | some c => Except.ok (PathKey.tup (path ++ [sn]), c)
          | none => Except.error (ODError.keyError sn)))).map List.flatten

/-! Basic lemmas about the ordered-dictionary and path operations. -/

theorem adLookup_set_self (d : AttrDict) (k : String) (v : Value) :
    adLookup (adSet d k v) k = some v := by
  induction d with
  | nil => simp [adSet, adLookup]
  | cons kv rest ih =>
    obtain ⟨k0, w⟩ := kv
    by_cases h : k0 = k
    · simp [adSet, h, adLookup]
    · simp [adSet, h, adLookup, ih]

theorem adLookup_set_ne (d : AttrDict) (k k2 : String) (v : Value) (h : k ≠ k2) :
    adLookup (adSet d k v) k2 = adLookup d k2 := by
  have h' : ¬(k2 = k) := fun hh => h hh.symm
  induction d with
  | nil => simp [adSet, adLookup, h', h]
  | cons kv rest ih =>
    obtain ⟨k0, w⟩ := kv
    by_cases h0 : k0 = k
    · simp [adSet, adLookup, h0, h, h']
    · by_cases h2 : k0 = k2 <;> simp [adSet, adLookup, h0, h2, h, h', ih]

theorem contains_iff_mem (l : List String) (a : String) : l.contains a = true ↔ a ∈ l :=
  List.elem_iff

theorem not_mem_of_contains_false (l : List String) (a : String)
    (h : l.contains a = false) : a ∉ l := by
  intro hm
  rw [← contains_iff_mem] at hm
  rw [h] at hm
  exact Bool.false_ne_true hm

theorem contains_false_of_not_mem (l : List String) (a : String) (h : a ∉ l) :
    l.contains a = false := by
  cases hc : l.contains a with
  | false => rfl
  | true => exact absurd ((contains_iff_mem _ _).mp hc) h

theorem adLookup_isSome_of_contains (d : AttrDict) (a : String)
    (h : (adKeys d).contains a = true) : ∃ v, adLookup d a = some v := by
  induction d with
  | nil => simp [adKeys] at h
  | cons kv rest ih =>
    obtain ⟨k0, w⟩ := kv
    by_cases h0 : k0 = a
    · exact ⟨w, by simp [adLookup, h0]⟩
    · have hm : a ∈ k0 :: adKeys rest := (contains_iff_mem _ _).mp h
      have hm' : a ∈ adKeys rest := by
        cases List.mem_cons.mp hm with
        | inl hh => exact absurd hh.symm h0
        | inr hh => exact hh
      obtain ⟨v, hv⟩ := ih ((contains_iff_mem _ _).mpr hm')
      exact ⟨v, by simp [adLookup, h0, hv]⟩

theorem adLookup_none_of_not_contains (d : AttrDict) (a : String)
    (h : (adKeys d).contains a = false) : adLookup d a = none := by
  induction d with
  | nil => simp [adLookup]
  | cons kv rest ih =>
    obtain ⟨k0, w⟩ := kv
    have hm : a ∉ k0 :: adKeys rest := not_mem_of_contains_false _ _ h
    have h1 : ¬(k0 = a) := fun hh => hm (by rw [hh]; exact List.mem_cons_self _ _)
    have h2 : a ∉ adKeys rest := fun hh => hm (List.mem_cons_of_mem _ hh)
    simp [adLookup, h1, ih (contains_false_of_not_mem _ _ h2)]

theorem adKeys_set_of_not_contains (d : AttrDict) (k : String) (v : Value)
    (h : (adKeys d).contains k = false) : adKeys (adSet d k v) = adKeys d ++ [k] := by
  induction d with
  | nil => simp [adSet, adKeys]
  | cons kv rest ih =>
    obtain ⟨k0, w⟩ := kv
    have hm : k ∉ k0 :: adKeys rest := not_mem_of_contains_false _ _ h
    have h1 : ¬(k0 = k) := fun hh => hm (by rw [hh]; exact List.mem_cons_self _ _)
    have h2 : k ∉ adKeys rest := fun hh => hm (List.mem_cons_of_mem _ hh)
    have hrec := ih (contains_false_of_not_mem _ _ h2)
    show adKeys (if k0 = k then (k0, v) :: rest else (k0, w) :: adSet rest k v) = _
    rw [if_neg h1]
    show k0 :: adKeys (adSet rest k v) = (k0 :: adKeys rest) ++ [k]
    rw [hrec]
    rfl

theorem write_all_lookup_not_contains (l : AttrDict) (d : AttrDict) (k : String)
    (h : (adKeys l).contains k = false) : adLookup (write_all l d) k = adLookup d k := by
  induction l generalizing d with
  | nil => simp [write_all]
  | cons kv rest ih =>
    obtain ⟨k0, w⟩ := kv
    have hm : k ∉ k0 :: adKeys rest := not_mem_of_contains_false _ _ h
    have h1 : k0 ≠ k := fun hh => hm (by rw [hh]; exact List.mem_cons_self _ _)
    have h2 : k ∉ adKeys rest := fun hh => hm (List.mem_cons_of_mem _ hh)
    rw [write_all, ih _ (contains_false_of_not_mem _ _ h2)]
    exact adLookup_set_ne _ _ _ _ h1

theorem write_all_lookup_of_nodup (l : AttrDict) (d : AttrDict) (k : String) (v : Value)
    (hn : (adKeys l).Nodup) (h : adLookup l k = some v) :
    adLookup (write_all l d) k = some v := by
  induction l generalizing d with
  | nil => simp [adLookup] at h
  | cons kv rest ih =>
    obtain ⟨k0, w⟩ := kv
    have hn2 : (k0 :: adKeys rest).Nodup := hn
    obtain ⟨hk0, hrest⟩ := List.nodup_cons.mp hn2
    by_cases h0 : k0 = k
    · have hw : w = v := by simpa [adLookup, h0] using h
      have hnm : (adKeys rest).contains k = false :=
        contains_false_of_not_mem _ _ (h0 ▸ hk0)
      rw [write_all, write_all_lookup_not_contains _ _ _ hnm]
      show adLookup (adSet d k0 w) k = some v
      rw [h0, adLookup_set_self, hw]
    · have h' : adLookup rest k = some v := by simpa [adLookup, h0] using h
      rw [write_all]
      exact ih _ hrest h'

theorem getPath2_setPath2_self (d : AttrDict) (k a : String) (v : Value) :
    getPath [k, a] (setPath [k, a] v d) = some v := by
  simp [setPath, getPath, adLookup_set_self]

theorem getPath2_setPath2_ne (d : AttrDict) (k a b : String) (v : Value) (h : a ≠ b) :
    getPath [k, b] (setPath [k, a] v d) = getPath [k, b] d := by
  cases hl : adLookup d k with
  | none => simp [setPath, getPath, hl, adLookup_set_self, adLookup_set_ne _ _ _ _ h, adLookup, h]
  | some w =>
    cases w with
    | dict s => simp [setPath, getPath, hl, adLookup_set_self, adLookup_set_ne _ _ _ _ h, h]
    | str s => simp [setPath, getPath, hl, adLookup_set_self, adLookup_set_ne _ _ _ _ h, adLookup, h]
    | int n => simp [setPath, getPath, hl, adLookup_set_self, adLookup_set_ne _ _ _ _ h, adLookup, h]

theorem adLookup_setPath2_ne (d : AttrDict) (k k2 a : String) (v : Value) (h : k ≠ k2) :
    adLookup (setPath [k, a] v d) k2 = adLookup d k2 := by
  simp [setPath]
  exact adLookup_set_ne _ _ _ _ h

theorem getPath2_setPath2_ne_head (d : AttrDict) (k k2 a b : String) (v : Value) (h : k ≠ k2) :
    getPath [k2, b] (setPath [k, a] v d) = getPath [k2, b] d := by
  simp only [getPath]
  rw [adLookup_setPath2_ne _ _ _ _ _ h]

theorem getPath2_setTop_ne (d : AttrDict) (k k2 b : String) (v : Value) (h : k ≠ k2) :
    getPath [k2, b] (adSet d k v) = getPath [k2, b] d := by
  simp only [getPath]
  rw [adLookup_set_ne _ _ _ _ h]

@[simp] theorem Entry.setAttr_attrs (e : Entry) (p : List String) (v : Value) :
    (e.setAttr p v).attrs = setPath p v e.attrs := rfl

@[simp] theorem Entry.setAttr_children (e : Entry) (p : List String) (v : Value) :
    (e.setAttr p v).children = e.children := rfl

@[simp] theorem Entry.setAttr_datasets (e : Entry) (p : List String) (v : Value) :
    (e.setAttr p v).datasets = e.datasets := rfl

@[simp] theorem Entry.setAttr_files (e : Entry) (p : List String) (v : Value) :
    (e.setAttr p v).files = e.files := rfl

@[simp] theorem Entry.withChildAdded_childNames (e : Entry) (n : String) (c : Entry) :
    (e.withChildAdded n c).childNames = e.childNames ++ [n] := by
  simp [Entry.withChildAdded, Entry.childNames]

/-! Claim C3: the structural precondition of add_group, add_domain and
add_run is commented out in the source, so the claimed ValueError is never
raised and the child is created for any parent. -/

/-- A root-level parent entry: neither a session entry nor a domain entry. -/
def parentC3 : Entry := Entry.mk [("metadata", Value.dict [])] [] [] [] "root"

def childC3 : Entry :=
  Entry.mk [("metadata", Value.dict [("domain", Value.str "")])] [] [] [] "root/dom"

def parentC3' : Entry :=
  Entry.mk [("metadata", Value.dict []), ("dom", Value.dict [("definition", Value.str "")])]
    [("dom", childC3)] [] [] "root"

/-- Counterexample to C3: on a parent that is neither a session nor a
domain entry, add_domain succeeds and creates the child instead of raising
a ValueError. -/
theorem add_domain_without_precondition_cex :
    is_session parentC3 = false ∧ is_domain parentC3 = false ∧
    add_domain parentC3 (some "dom") (Value.str "") = Except.ok (parentC3', childC3) :=
  ⟨rfl, rfl, rfl⟩

/-- C3 amended: add_group, add_domain and add_run perform no structural
check on the parent; with a non-None name (and key), they succeed on any
parent whatsoever and create the child entry. -/
theorem add_group_no_structural_check (parent : Entry) (nm ky : String) (defn : Value) :
    (∃ pc, add_group parent (some nm) (some ky) defn = Except.ok pc ∧
      pc.1.childNames = parent.childNames ++ [nm]) ∧
    (∃ pc, add_domain parent (some nm) defn = Except.ok pc ∧
      pc.1.childNames = parent.childNames ++ [nm]) ∧
    (∃ pc, add_run parent (some nm) defn = Except.ok pc ∧
      pc.1.childNames = parent.childNames ++ [nm]) := by
  refine ⟨⟨_, rfl, ?_⟩, ⟨_, rfl, ?_⟩, ⟨_, rfl, ?_⟩⟩ <;>
    simp [Entry.childNames, Entry.setAttr, Entry.withChildAdded]

/-- C4: every creation and attachment helper raises ValueError when its
required identifier argument is None; the error is raised before any
write, so the store is unchanged (in the embedding the error result
carries no updated entry). -/
theorem helpers_reject_none (parent : Entry) (v defn unit : Value) (ky nm : String) :
    isValueError (add_subject parent none) = true ∧
    isValueError (add_date parent none) = true ∧
    isValueError (add_session parent none) = true ∧
    isValueError (add_group parent none (some ky) defn) = true ∧
    isValueError (add_group parent (some nm) none defn) = true ∧
    isValueError (add_dataset parent none v defn unit) = true ∧
    isValueError (add_filepath parent none defn) = true ∧
    isValueError (get_filepath parent none) = true :=
  ⟨rfl, rfl, rfl, rfl, rfl, rfl, rfl, rfl⟩

/-- C5: add_subject raises ValueError on a non-root argument, add_date on
a non-subject argument, add_session on a non-date argument; the check runs
before the child creation and attribute writes, so in the error case no
child is created and nothing is written (the error result of the embedding
carries no updated entry). -/
theorem creators_reject_wrong_parent (e : Entry) (arg : Option String) :
    (is_root e = false → isValueError (add_subject e arg) = true) ∧
    (is_subject e = false → isValueError (add_date e arg) = true) ∧
    (is_date e = false → isValueError (add_session e arg) = true) := by
  refine ⟨?_, ?_, ?_⟩ <;> intro h <;> cases arg <;>
    simp [add_subject, add_date, add_session, isValueError, h]

/-- A subject-level entry (not a root) and a root entry (not a subject,
not a date), the concrete inputs for the C5 witness. -/
def subjC5 : Entry := Entry.mk [("metadata", Value.dict [("subject", Value.str "a")])] [] [] [] "r"

def rootC5 : Entry := Entry.mk [("metadata", Value.dict [])] [] [] [] "r"

/-- Witness for C5 at concrete wrong-parent entries. -/
theorem creators_reject_wrong_parent_witness :
    (is_root subjC5 = false ∧ isValueError (add_subject subjC5 (some "x")) = true) ∧
    (is_subject rootC5 = false ∧ isValueError (add_date rootC5 (some "x")) = true) ∧
    (is_date rootC5 = false ∧ isValueError (add_session rootC5 (some "1")) = true) :=
  ⟨⟨rfl, (creators_reject_wrong_parent subjC5 (some "x")).1 rfl⟩,
   ⟨rfl, (creators_reject_wrong_parent rootC5 (some "x")).2.1 rfl⟩,
   ⟨rfl, (creators_reject_wrong_parent rootC5 (some "1")).2.2 rfl⟩⟩

/-- C6: on a date entry, a non-None number that cannot be parsed as an
integer makes add_session raise a ValueError with message "number cannot
be parsed as integer", and no session entry is created. -/
theorem add_session_unparseable_number (e : Entry) (s : String)
    (hd : is_date e = true) (hp : pyParseInt s = none) :
    add_session e (some s) =
      Except.error (ODError.valueError "number cannot be parsed as integer") := by
  simp [add_session, hd, hp]

/-- A date-level entry, the concrete input for the C6 witness. -/
def dateC6 : Entry :=
  Entry.mk [("metadata", Value.dict [("subject", Value.str "a"), ("date", Value.str "d")])]
    [] [] [] "r"

/-- Witness for C6: the string abc is not parseable as an integer. -/
theorem add_session_unparseable_number_witness :
    is_date dateC6 = true ∧ pyParseInt "abc" = none ∧
    add_session dateC6 (some "abc") =
      Except.error (ODError.valueError "number cannot be parsed as integer") :=
  ⟨rfl, rfl, add_session_unparseable_number dateC6 "abc" rfl rfl⟩

/-! Claim C8: the entry-type validation of the iterators. -/

/-- An entry whose metadata holds session_number but no date: within_session
holds, yet iter_sessions does not raise. -/
def entryC8 : Entry :=
  Entry.mk [("metadata", Value.dict [("session_number", Value.int 1)])] [] [] [] "r"

/-- Counterexample to C8: on an entry for which within_session holds but
within_date does not, iter_sessions raises no error and yields nothing. -/
theorem iter_sessions_no_error_within_session_cex :
    within_session entryC8 = true ∧ iter_sessions entryC8 = Except.ok [] :=
  ⟨rfl, rfl⟩

/-- C8 amended: iter_subjects raises ValueError on a non-root entry,
iter_dates on an entry that is neither root nor subject, and iter_sessions
on an entry for which both within_date and within_session hold. -/
theorem iterators_validate_entry (e : Entry) :
    (is_root e = false → isValueError (iter_subjects e) = true) ∧
    (is_root e = false → is_subject e = false → isValueError (iter_dates e) = true) ∧
    (within_date e = true → within_session e = true → isValueError (iter_sessions e) = true) := by
  refine ⟨?_, ?_, ?_⟩
  · intro h
    simp [iter_subjects, h, isValueError]
  · intro h1 h2
    simp [iter_dates, h1, h2, isValueError]
  · intro h1 h2
    simp [iter_sessions, h1, h2, isValueError]

/-- An entry below the date level and an entry below the session level,
the concrete inputs for the C8 witness. -/
def sdC8 : Entry :=
  Entry.mk [("metadata", Value.dict [("subject", Value.str "a"), ("date", Value.str "d")])]
    [] [] [] "r"

def dsC8 : Entry :=
  Entry.mk [("metadata", Value.dict [("subject", Value.str "a"), ("date", Value.str "d"),
    ("session_number", Value.int 1)])] [] [] [] "r"

/-- Witness for the amended C8 at concrete wrong-level entries. -/
theorem iterators_validate_entry_witness :
    (is_root sdC8 = false ∧ isValueError (iter_subjects sdC8) = true) ∧
    (is_subject sdC8 = false ∧ isValueError (iter_dates sdC8) = true) ∧
    (within_date dsC8 = true ∧ within_session dsC8 = true ∧
      isValueError (iter_sessions dsC8) = true) :=
  ⟨⟨rfl, (iterators_validate_entry sdC8).1 rfl⟩,
   ⟨rfl, (iterators_validate_entry sdC8).2.1 rfl rfl⟩,
   ⟨rfl, rfl, (iterators_validate_entry dsC8).2.2 rfl rfl⟩⟩

/-! Claim C7: copy_attributes copies every attribute and commits once at
the end. -/

/-- C7: after copy_attributes(src, dst), every key present in src.attrs is
present in dst.attrs with an equal value (the deep copy of an immutable
model value is the value itself, so definitions and units are preserved),
and the trace of attribute events is the writes of all the keys followed
by one single commit at the very end. -/
theorem copy_attributes_spec (src dst : Entry)
    (hn : (adKeys src.attrs).Nodup) :
    (∀ k v, adLookup src.attrs k = some v →
      adLookup (copy_attributes src dst).1.attrs k = some v) ∧
    (∃ ws, (copy_attributes src dst).2 = ws ++ [AttrEvent.commit] ∧
      (∀ e ∈ ws, e.isCommit = false) ∧ ws.length = src.attrs.length) := by
  constructor
  · intro k v hv
    exact write_all_lookup_of_nodup _ _ _ _ hn hv
  · refine ⟨src.attrs.map (fun (kv : String × Value) => AttrEvent.write kv.1 kv.2), rfl, ?_, by simp⟩
    intro e he
    obtain ⟨kv, _, hkv⟩ := List.mem_map.mp he
    rw [← hkv]
    rfl

/-- Concrete source and destination entries for the C7 witness. -/
def srcC7 : Entry := Entry.mk [("a", Value.str "x"), ("metadata", Value.dict [])] [] [] [] "s"

def dstC7 : Entry := Entry.mk [] [] [] [] "d"

/-- Witness for C7: the attribute a of the source is copied. -/
theorem copy_attributes_spec_witness :
    (adKeys srcC7.attrs).Nodup ∧
    adLookup (copy_attributes srcC7 dstC7).1.attrs "a" = some (Value.str "x") :=
  ⟨by decide, (copy_attributes_spec srcC7 dstC7 (by decide)).1 "a" (Value.str "x") rfl⟩

/-! Claim C9: the creation helpers preserve the ontology level. -/

theorem bool_imp_elim (x y : Bool) (h : (!x || y) = true) (hy : y = false) : x = false := by
  cases x <;> cases y <;> simp_all

theorem beq_eq_decide_str (a k : String) : (a == k) = decide (a = k) := by
  by_cases h : a = k <;> simp [h]

theorem contains_append_single (l : List String) (a k : String) :
    (l ++ [k]).contains a = (l.contains a || (a == k)) := by
  induction l with
  | nil => simp [List.contains_cons, beq_eq_decide_str]
  | cons b rest ih => simp [List.contains_cons, ih, Bool.or_assoc, beq_eq_decide_str]

theorem hasMetadataDict_elim (e : Entry) (h : e.hasMetadataDict = true) :
    ∃ m, adLookup e.attrs METADATA_ENTRY = some (Value.dict m) := by
  unfold Entry.hasMetadataDict at h
  cases hl : adLookup e.attrs METADATA_ENTRY with
  | none => rw [hl] at h; simp at h
  | some v =>
    cases v with
    | dict m => exact ⟨m, rfl⟩
    | str s => rw [hl] at h; simp at h
    | int n => rw [hl] at h; simp at h

theorem metaKeys_elim (e : Entry) :
    e.metaKeys = [] ∨
    ∃ m, adLookup e.attrs METADATA_ENTRY = some (Value.dict m) ∧ e.metaKeys = adKeys m := by
  unfold Entry.metaKeys
  cases hl : adLookup e.attrs METADATA_ENTRY with
  | none => exact Or.inl rfl
  | some v =>
    cases v with
    | dict m => exact Or.inr ⟨m, rfl, rfl⟩
    | str s => exact Or.inl rfl
    | int n => exact Or.inl rfl

theorem metaKeys_of_lookup_dict (e : Entry) (m : AttrDict)
    (h : adLookup e.attrs METADATA_ENTRY = some (Value.dict m)) : e.metaKeys = adKeys m := by
  unfold Entry.metaKeys
  rw [h]

theorem setPath2_eq_of_lookup_dict (d : AttrDict) (k a : String) (v : Value) (m : AttrDict)
    (h : adLookup d k = some (Value.dict m)) :
    setPath [k, a] v d = adSet d k (Value.dict (adSet m a v)) := by
  simp [setPath, h]

/-- The metadata keys of the child entry built by add_subject, add_date and
add_session: the parent's attributes are copied wholesale into the fresh
child and then the metadata mapping gains the identifier key K. -/
theorem child_metaKeys (parent : Entry) (m : AttrDict) (K : String) (v : Value) (nm : String)
    (hn : (adKeys parent.attrs).Nodup)
    (hm : adLookup parent.attrs METADATA_ENTRY = some (Value.dict m))
    (hk : (adKeys m).contains K = false) :
    (((copy_attributes parent (createChild parent nm)).1).setAttr [METADATA_ENTRY, K] v).metaKeys
      = adKeys m ++ [K] := by
  have h1 : adLookup (write_all parent.attrs []) METADATA_ENTRY = some (Value.dict m) :=
    write_all_lookup_of_nodup _ _ _ _ hn hm
  have hattrs :
      (((copy_attributes parent (createChild parent nm)).1).setAttr [METADATA_ENTRY, K] v).attrs
        = setPath [METADATA_ENTRY, K] v (write_all parent.attrs []) := rfl
  unfold Entry.metaKeys
  rw [hattrs, setPath2_eq_of_lookup_dict _ _ _ _ _ h1, adLookup_set_self]
  exact adKeys_set_of_not_contains _ _ _ hk

/-- C9: the creation helpers preserve the ontology level of their result:
on a root entry with well-formed metadata and non-None name, add_subject
returns a subject entry; on a subject entry with well-formed metadata,
add_date returns a date entry; on a date entry with well-formed metadata
and a parseable number, add_session returns a session entry; in each case
the metadata keys of the child are exactly the parent's plus the
next-level identifier key. -/
theorem creators_preserve_level (root subj dt : Entry) (nm dts ns : String) (n : Int) :
    ((adKeys root.attrs).Nodup → root.hasMetadataDict = true → wellFormedMeta root = true →
      is_root root = true → ∀ pc, add_subject root (some nm) = Except.ok pc →
      pc.2.metaKeys = root.metaKeys ++ [SUBJECT_KEY] ∧ is_subject pc.2 = true) ∧
    ((adKeys subj.attrs).Nodup → wellFormedMeta subj = true →
      is_subject subj = true → ∀ pc, add_date subj (some dts) = Except.ok pc →
      pc.2.metaKeys = subj.metaKeys ++ [DATE_KEY] ∧ is_date pc.2 = true) ∧
    ((adKeys dt.attrs).Nodup → wellFormedMeta dt = true →
      is_date dt = true → pyParseInt ns = some n →
      ∀ pc, add_session dt (some ns) = Except.ok pc →
      pc.2.metaKeys = dt.metaKeys ++ [SESSION_KEY] ∧ is_session pc.2 = true) := by
  refine ⟨?_, ?_, ?_⟩
  · intro hn hmd hw hr pc hpc
    obtain ⟨m, hm⟩ := hasMetadataDict_elim root hmd
    have hmk : root.metaKeys = adKeys m := metaKeys_of_lookup_dict root m hm
    have hs : (adKeys m).contains SUBJECT_KEY = false := by
      have : within_subject root = false := by
        have := hr
        unfold is_root at this
        cases hws : within_subject root
        · rfl
        · rw [hws] at this; simp at this
      unfold within_subject at this
      rw [hmk] at this
      exact this
    have hw3 : (!((adKeys m).contains DATE_KEY) || (adKeys m).contains SUBJECT_KEY) = true := by
      have := hw
      unfold wellFormedMeta at this
      rw [hmk] at this
      simp only [Bool.and_eq_true] at this
      exact this.2.2
    have hd : (adKeys m).contains DATE_KEY = false := bool_imp_elim _ _ hw3 hs
    simp only [add_subject, hr, Bool.not_true, Bool.false_eq_true, if_false] at hpc
    injection hpc with hpc2
    obtain rfl := hpc2
    have hck := child_metaKeys root m SUBJECT_KEY (Value.str nm) nm hn hm hs
    constructor
    · rw [hmk]
      exact hck
    · show (within_subject _ && !(within_date _)) = true
      unfold within_subject within_date
      rw [hck, contains_append_single, contains_append_single, hs, hd]
      decide
  · intro hn hw hsub pc hpc
    have hsub' : within_subject subj = true ∧ within_date subj = false := by
      have := hsub
      unfold is_subject at this
      simp only [Bool.and_eq_true, Bool.not_eq_true'] at this
      exact this
    obtain ⟨m, hm, hmk⟩ : ∃ m, adLookup subj.attrs METADATA_ENTRY = some (Value.dict m) ∧
        subj.metaKeys = adKeys m := by
      cases metaKeys_elim subj with
      | inl hnil =>
        have := hsub'.1
        unfold within_subject at this
        rw [hnil] at this
        simp at this
      | inr hh => exact hh
    have hd : (adKeys m).contains DATE_KEY = false := by
      have := hsub'.2
      unfold within_date at this
      rw [hmk] at this
      exact this
    have hw2 : (!((adKeys m).contains SESSION_KEY) || (adKeys m).contains DATE_KEY) = true := by
      have := hw
      unfold wellFormedMeta at this
      rw [hmk] at this
      simp only [Bool.and_eq_true] at this
      exact this.2.1
    have hsn : (adKeys m).contains SESSION_KEY = false := bool_imp_elim _ _ hw2 hd
    simp only [add_date, hsub, Bool.not_true, Bool.false_eq_true, if_false] at hpc
    injection hpc with hpc2
    obtain rfl := hpc2
    have hck := child_metaKeys subj m DATE_KEY (Value.str dts) dts hn hm hd
    constructor
    · rw [hmk]
      exact hck
    · show (within_date _ && !(within_session _)) = true
      unfold within_date within_session
      rw [hck, contains_append_single, contains_append_single, hd, hsn]
      decide
  · intro hn hw hdt hp pc hpc
    have hdt' : within_date dt = true ∧ within_session dt = false := by
      have := hdt
      unfold is_date at this
      simp only [Bool.and_eq_true, Bool.not_eq_true'] at this
      exact this
    obtain ⟨m, hm, hmk⟩ : ∃ m, adLookup dt.attrs METADATA_ENTRY = some (Value.dict m) ∧
        dt.metaKeys = adKeys m := by
      cases metaKeys_elim dt with
      | inl hnil =>
        have := hdt'.1
        unfold within_date at this
        rw [hnil] at this
        simp at this
      | inr hh => exact hh
    have hsn : (adKeys m).contains SESSION_KEY = false := by
      have := hdt'.2
      unfold within_session at this
      rw [hmk] at this
      exact this
    have hw1 : (!((adKeys m).contains RUN_KEY || (adKeys m).contains DOMAIN_KEY)
        || (adKeys m).contains SESSION_KEY) = true := by
      have := hw
      unfold wellFormedMeta at this
      rw [hmk] at this
      simp only [Bool.and_eq_true] at this
      exact this.1
    have hrd : ((adKeys m).contains RUN_KEY || (adKeys m).contains DOMAIN_KEY) = false :=
      bool_imp_elim _ _ hw1 hsn
    have hrun : (adKeys m).contains RUN_KEY = false := by
      cases hx : (adKeys m).contains RUN_KEY
      · rfl
      · rw [hx] at hrd; simp at hrd
    have hdom : (adKeys m).contains DOMAIN_KEY = false := by
      cases hx : (adKeys m).contains DOMAIN_KEY
      · rfl
      · rw [hx] at hrd; simp at hrd
    simp only [add_session, hdt, Bool.not_true, Bool.false_eq_true, if_false, hp] at hpc
    injection hpc with hpc2
    obtain rfl := hpc2
    have hck := child_metaKeys dt m SESSION_KEY (Value.int n) (toString n) hn hm hsn
    constructor
    · rw [hmk]
      exact hck
    · show (within_session _ && !(within_domain _ || is_run _)) = true
      unfold within_session within_domain is_run
      rw [hck, contains_append_single, contains_append_single, contains_append_single,
        hsn, hrun, hdom]
      decide

/-- Concrete root, subject and date entries for the C9 witness. -/
def rootC9 : Entry := Entry.mk [("metadata", Value.dict [])] [] [] [] "r"

def subjC9 : Entry := Entry.mk [("metadata", Value.dict [("subject", Value.str "a")])] [] [] [] "r"

def dateC9 : Entry :=
  Entry.mk [("metadata", Value.dict [("subject", Value.str "a"), ("date", Value.str "d")])]
    [] [] [] "r"

/-- Witness for C9 at concrete entries of each level. -/
theorem creators_preserve_level_witness :
    (∃ pc, add_subject rootC9 (some "s") = Except.ok pc ∧ is_subject pc.2 = true) ∧
    (∃ pc, add_date subjC9 (some "d") = Except.ok pc ∧ is_date pc.2 = true) ∧
    (∃ pc, add_session dateC9 (some "12") = Except.ok pc ∧ is_session pc.2 = true) := by
  refine ⟨⟨_, rfl, ?_⟩, ⟨_, rfl, ?_⟩, ⟨_, rfl, ?_⟩⟩
  · exact ((creators_preserve_level rootC9 subjC9 dateC9 "s" "d" "12" 12).1
      (by decide) rfl rfl rfl _ rfl).2
  · exact ((creators_preserve_level rootC9 subjC9 dateC9 "s" "d" "12" 12).2.1
      (by decide) rfl rfl _ rfl).2
  · exact ((creators_preserve_level rootC9 subjC9 dateC9 "s" "d" "12" 12).2.2
      (by decide) rfl rfl rfl _ rfl).2

/-! Lemmas about the attribute-copying loop of copy_dataset and copy_file. -/

theorem copy_nonformatting_nil (source : Entry) (name destname : String) (d d' : Entry)
    (h : copy_nonformatting source name destname [] d = Except.ok d') : d' = d := by
  unfold copy_nonformatting at h
  injection h with h2
  exact h2.symm

/-- The loop never touches a formatting attribute of the destination. -/
theorem copy_nonformatting_frame (source : Entry) (name destname : String)
    (sub : AttrDict) (d d' : Entry)
    (h : copy_nonformatting source name destname sub d = Except.ok d') (b : String)
    (hb : is_formatting_attribute b = true) :
    getPath [destname, b] d'.attrs = getPath [destname, b] d.attrs := by
  induction sub generalizing d with
  | nil => rw [copy_nonformatting_nil _ _ _ _ _ h]
  | cons kv rest ih =>
    simp only [copy_nonformatting] at h
    by_cases hf : is_formatting_attribute kv.1 = true
    · rw [if_pos hf] at h
      exact ih d h
    · rw [if_neg hf] at h
      cases hg : getPath [name, kv.1] source.attrs with
      | none => rw [hg] at h; simp at h
      | some v =>
        rw [hg] at h
        have h' : copy_nonformatting source name destname rest
            (d.setAttr [destname, kv.1] v) = Except.ok d' := h
        have hne : kv.1 ≠ b := fun hh => hf (by rw [hh]; exact hb)
        rw [ih _ h', Entry.setAttr_attrs]
        exact getPath2_setPath2_ne _ _ _ _ _ hne

/-- The loop only writes attributes: datasets, files and children of the
destination are unchanged. -/
theorem copy_nonformatting_state (source : Entry) (name destname : String)
    (sub : AttrDict) (d d' : Entry)
    (h : copy_nonformatting source name destname sub d = Except.ok d') :
    d'.datasets = d.datasets ∧ d'.files = d.files ∧ d'.children = d.children := by
  induction sub generalizing d with
  | nil => rw [copy_nonformatting_nil _ _ _ _ _ h]; exact ⟨rfl, rfl, rfl⟩
  | cons kv rest ih =>
    simp only [copy_nonformatting] at h
    by_cases hf : is_formatting_attribute kv.1 = true
    · rw [if_pos hf] at h
      exact ih d h
    · rw [if_neg hf] at h
      cases hg : getPath [name, kv.1] source.attrs with
      | none => rw [hg] at h; simp at h
      | some v =>
        rw [hg] at h
        have h' : copy_nonformatting source name destname rest
            (d.setAttr [destname, kv.1] v) = Except.ok d' := h
        simpa using ih _ h'

/-- The loop writes only under the destname top-level key. -/
theorem copy_nonformatting_lookup_frame (source : Entry) (name destname : String)
    (sub : AttrDict) (d d' : Entry)
    (h : copy_nonformatting source name destname sub d = Except.ok d') (k : String)
    (hk : k ≠ destname) :
    adLookup d'.attrs k = adLookup d.attrs k := by
  induction sub generalizing d with
  | nil => rw [copy_nonformatting_nil _ _ _ _ _ h]
  | cons kv rest ih =>
    simp only [copy_nonformatting] at h
    by_cases hf : is_formatting_attribute kv.1 = true
    · rw [if_pos hf] at h
      exact ih d h
    · rw [if_neg hf] at h
      cases hg : getPath [name, kv.1] source.attrs with
      | none => rw [hg] at h; simp at h
      | some v =>
        rw [hg] at h
        have h' : copy_nonformatting source name destname rest
            (d.setAttr [destname, kv.1] v) = Except.ok d' := h
        rw [ih _ h', Entry.setAttr_attrs]
        exact adLookup_setPath2_ne _ _ _ _ _ (Ne.symm hk)

/-- Once a non-formatting attribute of the destination agrees with the
source, the rest of the loop keeps it so (a later duplicate key rewrites
the same source value). -/
theorem copy_nonformatting_stable (source : Entry) (name destname : String)
    (sub : AttrDict) (d d' : Entry)
    (h : copy_nonformatting source name destname sub d = Except.ok d') (a : String)
    (ha : getPath [destname, a] d.attrs = getPath [name, a] source.attrs) :
    getPath [destname, a] d'.attrs = getPath [name, a] source.attrs := by
  induction sub generalizing d with
  | nil => rw [copy_nonformatting_nil _ _ _ _ _ h]; exact ha
  | cons kv rest ih =>
    simp only [copy_nonformatting] at h
    by_cases hf : is_formatting_attribute kv.1 = true
    · rw [if_pos hf] at h
      exact ih d h ha
    · rw [if_neg hf] at h
      cases hg : getPath [name, kv.1] source.attrs with
      | none => rw [hg] at h; simp at h
      | some v =>
        rw [hg] at h
        have h' : copy_nonformatting source name destname rest
            (d.setAttr [destname, kv.1] v) = Except.ok d' := h
        refine ih _ h' ?_
        rw [Entry.setAttr_attrs]
        by_cases hak : kv.1 = a
        · rw [hak]
          rw [getPath2_setPath2_self]
          rw [← hak, hg]
        · rw [getPath2_setPath2_ne _ _ _ _ _ hak]
          exact ha

/-- Every non-formatting key of source.attrs[name] ends up copied under the
destination with the source's value. -/
theorem copy_nonformatting_copies (source : Entry) (name destname : String)
    (sub : AttrDict) (d d' : Entry)
    (h : copy_nonformatting source name destname sub d = Except.ok d') (a : String)
    (hmem : a ∈ adKeys sub) (hf : is_formatting_attribute a = false) :
    getPath [destname, a] d'.attrs = getPath [name, a] source.attrs := by
  induction sub generalizing d with
  | nil => simp [adKeys] at hmem
  | cons kv rest ih =>
    simp only [copy_nonformatting] at h
    by_cases hak : kv.1 = a
    · have hfk : ¬(is_formatting_attribute kv.1 = true) := by
        rw [hak, hf]
        simp
      rw [if_neg hfk] at h
      cases hg : getPath [name, kv.1] source.attrs with
      | none => rw [hg] at h; simp at h
      | some v =>
        rw [hg] at h
        have h' : copy_nonformatting source name destname rest
            (d.setAttr [destname, kv.1] v) = Except.ok d' := h
        refine copy_nonformatting_stable source name destname rest _ d' h' a ?_
        rw [Entry.setAttr_attrs, hak] at *
        rw [getPath2_setPath2_self]
        rw [← hg, hak]
    · have hmem' : a ∈ adKeys rest := by
        have hmem2 : a ∈ kv.1 :: adKeys rest := hmem
        cases List.mem_cons.mp hmem2 with
        | inl hh => exact absurd hh.symm hak
        | inr hh => exact hh
      by_cases hfk : is_formatting_attribute kv.1 = true
      · rw [if_pos hfk] at h
        exact ih d h hmem'
      · rw [if_neg hfk] at h
        cases hg : getPath [name, kv.1] source.attrs with
        | none => rw [hg] at h; simp at h
        | some v =>
          rw [hg] at h
          have h' : copy_nonformatting source name destname rest
              (d.setAttr [destname, kv.1] v) = Except.ok d' := h
          exact ih _ h' hmem'

/-- Claim C2: copy_dataset with destname defaulting to name. -/
theorem copy_dataset_roundtrip (source dest dest' : Entry) (name : String)
    (hsl : ('/' : Char) ∉ name.data)
    (h : copy_dataset source dest name none = Except.ok dest') :
    getPath [name, DEFINITION_KEY] dest'.attrs = getPath [name, DEFINITION_KEY] source.attrs ∧
    getPath [name, UNIT_KEY] dest'.attrs = getPath [name, UNIT_KEY] source.attrs ∧
    adLookup dest'.datasets name = adLookup source.datasets name ∧
    (∀ sub a, adLookup source.attrs name = some (Value.dict sub) → a ∈ adKeys sub →
      is_formatting_attribute a = false →
      getPath [name, a] dest'.attrs = getPath [name, a] source.attrs) := by
  simp only [copy_dataset, Option.getD_none] at h
  cases h1 : adLookup source.datasets name with
  | none => rw [h1] at h; simp at h
  | some sval =>
  rw [h1] at h
  cases h2 : getPath [name, DEFINITION_KEY] source.attrs with
  | none => rw [h2] at h; simp at h
  | some sdef =>
  rw [h2] at h
  cases h3 : getPath [name, UNIT_KEY] source.attrs with
  | none => rw [h3] at h; simp at h
  | some sunit =>
  rw [h3] at h
  cases h5 : adLookup source.attrs name with
  | none => rw [h5] at h; simp [add_dataset] at h
  | some w =>
  cases w with
  | str s => rw [h5] at h; simp [add_dataset] at h
  | int n => rw [h5] at h; simp [add_dataset] at h
  | dict sub =>
  rw [h5] at h
  -- the entry built by add_dataset, made explicit so that the stuck match
  -- of h reduces
  replace h : copy_nonformatting source name name sub
      ((((Entry.mk dest.attrs dest.children (adSet dest.datasets name sval) dest.files
        dest.reprPath).setAttr [name, DEFINITION_KEY] sdef).setAttr [name, UNIT_KEY]
        sunit).setAttr [name, TYPE_KEY] (Value.str DATASET_TYPE)) = Except.ok dest' := h
  have hdef1 : getPath [name, DEFINITION_KEY] dest'.attrs = some sdef := by
    rw [copy_nonformatting_frame _ _ _ _ _ _ h DEFINITION_KEY (by decide)]
    show getPath [name, DEFINITION_KEY]
      (setPath [name, TYPE_KEY] (Value.str DATASET_TYPE)
        (setPath [name, UNIT_KEY] sunit
          (setPath [name, DEFINITION_KEY] sdef dest.attrs))) = some sdef
    rw [getPath2_setPath2_ne _ _ _ _ _ (by decide : TYPE_KEY ≠ DEFINITION_KEY)]
    rw [getPath2_setPath2_ne _ _ _ _ _ (by decide : UNIT_KEY ≠ DEFINITION_KEY)]
    exact getPath2_setPath2_self _ _ _ _
  have hunit1 : getPath [name, UNIT_KEY] dest'.attrs = some sunit := by
    rw [copy_nonformatting_frame _ _ _ _ _ _ h UNIT_KEY (by decide)]
    show getPath [name, UNIT_KEY]
      (setPath [name, TYPE_KEY] (Value.str DATASET_TYPE)
        (setPath [name, UNIT_KEY] sunit
          (setPath [name, DEFINITION_KEY] sdef dest.attrs))) = some sunit
    rw [getPath2_setPath2_ne _ _ _ _ _ (by decide : TYPE_KEY ≠ UNIT_KEY)]
    exact getPath2_setPath2_self _ _ _ _
  have hds1 : adLookup dest'.datasets name = some sval := by
    rw [(copy_nonformatting_state _ _ _ _ _ _ h).1]
    show adLookup (adSet dest.datasets name sval) name = some sval
    exact adLookup_set_self _ _ _
  refine ⟨by rw [hdef1], by rw [hunit1], by rw [hds1], ?_⟩
  intro sub' a hsub' hmem hfa
  have hsub2 : sub' = sub := by
    injection hsub' with hw
    injection hw with hw2
    exact hw2.symm
  rw [hsub2] at hmem
  exact copy_nonformatting_copies _ _ _ _ _ _ h a hmem hfa

/-- Concrete source and destination entries for the C2 witness. -/
def srcC2 : Entry := Entry.mk
  [("ds", Value.dict [("definition", Value.str "dd"), ("unit", Value.str "mV"),
    ("note", Value.str "n")])]
  [] [("ds", Value.int 7)] [] "s"

def dstC2 : Entry := Entry.mk [] [] [] [] "d"

/-- Witness for C2: the definition, unit and a non-formatting attribute of
the dataset ds round-trip through copy_dataset. -/
theorem copy_dataset_roundtrip_witness :
    (('/' : Char) ∉ "ds".data) ∧
    ∃ d', copy_dataset srcC2 dstC2 "ds" none = Except.ok d' ∧
      getPath ["ds", DEFINITION_KEY] d'.attrs = getPath ["ds", DEFINITION_KEY] srcC2.attrs ∧
      adLookup d'.datasets "ds" = adLookup srcC2.datasets "ds" ∧
      getPath ["ds", "note"] d'.attrs = getPath ["ds", "note"] srcC2.attrs := by
  refine ⟨by decide, _, rfl, ?_, ?_, ?_⟩
  · exact (copy_dataset_roundtrip srcC2 dstC2 _ "ds" (by decide) rfl).1
  · exact (copy_dataset_roundtrip srcC2 dstC2 _ "ds" (by decide) rfl).2.2.1
  · exact (copy_dataset_roundtrip srcC2 dstC2 _ "ds" (by decide) rfl).2.2.2 _ "note" rfl
      (by decide) (by decide)

/-! Frame lemmas for copy_dataset and copy_file, used for copy_children. -/

theorem basenameAux_no_slash (l : List Char) (acc : List Char) (h : ('/' : Char) ∉ l) :
    basenameAux l acc = acc ++ l := by
  induction l generalizing acc with
  | nil => simp [basenameAux]
  | cons c rest ih =>
    have hc : ¬(c = '/') := fun hh => h (by rw [hh]; exact List.mem_cons_self _ _)
    have hr : ('/' : Char) ∉ rest := fun hh => h (List.mem_cons_of_mem _ hh)
    rw [basenameAux, if_neg hc, ih _ hr]
    simp

theorem basename_no_slash (s : String) (h : ('/' : Char) ∉ s.data) : basename s = s := by
  unfold basename
  rw [basenameAux_no_slash _ _ h]
  rfl

/-- What copy_dataset touches: it leaves the files alone, stores the
source dataset under the (defaulted) destination name, and changes no
attribute or dataset under any other top-level key. -/
theorem copy_dataset_frame (source d d1 : Entry) (k : String)
    (h : copy_dataset source d k none = Except.ok d1) :
    d1.files = d.files ∧
    adLookup d1.datasets k = adLookup source.datasets k ∧
    (∀ k2, k2 ≠ k → adLookup d1.attrs k2 = adLookup d.attrs k2 ∧
      adLookup d1.datasets k2 = adLookup d.datasets k2) := by
  simp only [copy_dataset, Option.getD_none] at h
  cases h1 : adLookup source.datasets k with
  | none => rw [h1] at h; simp at h
  | some sval =>
  rw [h1] at h
  cases h2 : getPath [k, DEFINITION_KEY] source.attrs with
  | none => rw [h2] at h; simp at h
  | some sdef =>
  rw [h2] at h
  cases h3 : getPath [k, UNIT_KEY] source.attrs with
  | none => rw [h3] at h; simp at h
  | some sunit =>
  rw [h3] at h
  cases h5 : adLookup source.attrs k with
  | none => rw [h5] at h; simp [add_dataset] at h
  | some w =>
  cases w with
  | str s => rw [h5] at h; simp [add_dataset] at h
  | int n => rw [h5] at h; simp [add_dataset] at h
  | dict sub =>
  rw [h5] at h
  replace h : copy_nonformatting source k k sub
      ((((Entry.mk d.attrs d.children (adSet d.datasets k sval) d.files
        d.reprPath).setAttr [k, DEFINITION_KEY] sdef).setAttr [k, UNIT_KEY]
        sunit).setAttr [k, TYPE_KEY] (Value.str DATASET_TYPE)) = Except.ok d1 := h
  have hstate := copy_nonformatting_state _ _ _ _ _ _ h
  refine ⟨?_, ?_, ?_⟩
  · rw [hstate.2.1]
    simp
  · rw [hstate.1]
    show adLookup (adSet d.datasets k sval) k = some sval
    exact adLookup_set_self _ _ _
  · intro k2 hk2
    constructor
    · rw [copy_nonformatting_lookup_frame _ _ _ _ _ _ h k2 hk2]
      show adLookup (setPath [k, TYPE_KEY] (Value.str DATASET_TYPE)
        (setPath [k, UNIT_KEY] sunit (setPath [k, DEFINITION_KEY] sdef d.attrs))) k2
        = adLookup d.attrs k2
      rw [adLookup_setPath2_ne _ _ _ _ _ (Ne.symm hk2),
        adLookup_setPath2_ne _ _ _ _ _ (Ne.symm hk2),
        adLookup_setPath2_ne _ _ _ _ _ (Ne.symm hk2)]
    · rw [hstate.1]
      show adLookup (adSet d.datasets k sval) k2 = adLookup d.datasets k2
      exact adLookup_set_ne _ _ _ _ (Ne.symm hk2)

/-- What copy_file touches: it appends the copied file to the destination
directory, leaves the datasets alone, and writes attributes only under the
file's basename and under the destination name itself. -/
theorem copy_file_frame (source d d1 : Entry) (k : String)
    (h : copy_file source d k none = Except.ok d1) :
    d1.files = d.files ++ [basename k] ∧
    d1.datasets = d.datasets ∧
    (∀ k2, k2 ≠ basename k → k2 ≠ k → adLookup d1.attrs k2 = adLookup d.attrs k2) := by
  simp only [copy_file, Option.getD_none] at h
  cases h2 : getPath [k, DEFINITION_KEY] source.attrs with
  | none => rw [h2] at h; simp at h
  | some sdef =>
  rw [h2] at h
  replace h : (if !(source.files.contains k) then
        Except.error (ODError.fileNotFoundError (source.reprPath ++ "/" ++ k))
      else
        match adLookup source.attrs k with
        | some (Value.dict sub) => copy_nonformatting source k k sub
            (Entry.mk
              (setPath [basename k, TYPE_KEY] (Value.str FILE_TYPE)
                (setPath [basename k, DEFINITION_KEY] sdef d.attrs))
              d.children d.datasets (d.files ++ [basename k]) d.reprPath)
        | _ => Except.error (ODError.keyError k)) = Except.ok d1 := h
  by_cases h6 : source.files.contains k = true
  · rw [h6] at h
    simp only [Bool.not_true, Bool.false_eq_true, if_false] at h
    cases h5 : adLookup source.attrs k with
    | none => rw [h5] at h; simp at h
    | some w =>
    cases w with
    | str s => rw [h5] at h; simp at h
    | int n => rw [h5] at h; simp at h
    | dict sub =>
    rw [h5] at h
    replace h : copy_nonformatting source k k sub
        (Entry.mk
          (setPath [basename k, TYPE_KEY] (Value.str FILE_TYPE)
            (setPath [basename k, DEFINITION_KEY] sdef d.attrs))
          d.children d.datasets (d.files ++ [basename k]) d.reprPath) = Except.ok d1 := h
    have hstate := copy_nonformatting_state _ _ _ _ _ _ h
    refine ⟨?_, ?_, ?_⟩
    · rw [hstate.2.1]
      simp
    · rw [hstate.1]
      simp
    · intro k2 hk2b hk2
      rw [copy_nonformatting_lookup_frame _ _ _ _ _ _ h k2 hk2]
      show adLookup (setPath [basename k, TYPE_KEY] (Value.str FILE_TYPE)
        (setPath [basename k, DEFINITION_KEY] sdef d.attrs)) k2 = adLookup d.attrs k2
      rw [adLookup_setPath2_ne _ _ _ _ _ (Ne.symm hk2b),
        adLookup_setPath2_ne _ _ _ _ _ (Ne.symm hk2b)]
  · rw [Bool.not_eq_true] at h6
    rw [h6] at h
    simp at h

/-! Claim C10: copy_children and the metadata key. -/

theorem copy_children_loop_nil (source : Entry) (d d' : Entry)
    (h : copy_children_loop source [] d = Except.ok d') : d' = d := by
  unfold copy_children_loop at h
  injection h with h2
  exact h2.symm

/-- The copy_children loop never removes a file of the destination. -/
theorem copy_children_loop_files_mono (source : Entry) (l : AttrDict) (d d' : Entry)
    (h : copy_children_loop source l d = Except.ok d') (x : String)
    (hx : d.files.contains x = true) : d'.files.contains x = true := by
  induction l generalizing d with
  | nil => rw [copy_children_loop_nil _ _ _ h]; exact hx
  | cons kv rest ih =>
    simp only [copy_children_loop] at h
    by_cases hds : is_dataset_type source kv.1 = true
    · rw [if_pos hds] at h
      cases hcd : copy_dataset source d kv.1 none with
      | error e => rw [hcd] at h; simp at h
      | ok d1 =>
        rw [hcd] at h
        have h' : copy_children_loop source rest d1 = Except.ok d' := h
        refine ih _ h' ?_
        rw [(copy_dataset_frame _ _ _ _ hcd).1]
        exact hx
    · rw [if_neg hds] at h
      cases hift : is_file_type source kv.1 with
      | error e =>
        rw [hift] at h
        have h2 : (Except.error e : Except ODError Entry) = Except.ok d' := h
        simp at h2
      | ok ft =>
        rw [hift] at h
        cases ft with
        | true =>
          have h2 : (match copy_file source d kv.1 none with
              | Except.ok d1 => copy_children_loop source rest d1
              | Except.error e => Except.error e) = Except.ok d' := h
          cases hcf : copy_file source d kv.1 none with
          | error e => rw [hcf] at h2; simp at h2
          | ok d1 =>
            rw [hcf] at h2
            have h' : copy_children_loop source rest d1 = Except.ok d' := h2
            refine ih _ h' ?_
            rw [(copy_file_frame _ _ _ _ hcf).1, contains_append_single, hx]
            simp
        | false =>
          have h2 : (if kv.1 = METADATA_ENTRY then copy_children_loop source rest d
              else match adLookup source.attrs kv.1 with
                | some v => copy_children_loop source rest (d.setAttr [kv.1] v)
                | none => Except.error (ODError.keyError kv.1)) = Except.ok d' := h
          by_cases hkm : kv.1 = METADATA_ENTRY
          · rw [if_pos hkm] at h2
            exact ih _ h2 hx
          · rw [if_neg hkm] at h2
            cases hga : adLookup source.attrs kv.1 with
            | none => rw [hga] at h2; simp at h2
            | some v =>
              rw [hga] at h2
              have h' : copy_children_loop source rest (d.setAttr [kv.1] v) = Except.ok d' := h2
              refine ih _ h' ?_
              rw [Entry.setAttr_files]
              exact hx

/-- Keys that never occur in the remaining items are untouched by the
copy_children loop. -/
theorem copy_children_loop_preserves (source : Entry) (l : AttrDict) (d d' : Entry)
    (h : copy_children_loop source l d = Except.ok d')
    (hsl : ∀ kv, kv ∈ l → ('/' : Char) ∉ (Prod.fst (α := String) (β := Value) kv).data)
    (k : String) (hk : ∀ kv, kv ∈ l → Prod.fst (α := String) (β := Value) kv ≠ k) :
    adLookup d'.attrs k = adLookup d.attrs k ∧
    adLookup d'.datasets k = adLookup d.datasets k := by
  induction l generalizing d with
  | nil => rw [copy_children_loop_nil _ _ _ h]; exact ⟨rfl, rfl⟩
  | cons kv rest ih =>
    have hk0 : kv.1 ≠ k := hk kv (List.mem_cons_self _ _)
    have hsl0 : ('/' : Char) ∉ kv.1.data := hsl kv (List.mem_cons_self _ _)
    have hkr : ∀ kv2, kv2 ∈ rest → Prod.fst (α := String) (β := Value) kv2 ≠ k :=
      fun kv2 hm => hk kv2 (List.mem_cons_of_mem _ hm)
    have hslr : ∀ kv2, kv2 ∈ rest → ('/' : Char) ∉ (Prod.fst (α := String) (β := Value) kv2).data :=
      fun kv2 hm => hsl kv2 (List.mem_cons_of_mem _ hm)
    simp only [copy_children_loop] at h
    by_cases hds : is_dataset_type source kv.1 = true
    · rw [if_pos hds] at h
      cases hcd : copy_dataset source d kv.1 none with
      | error e => rw [hcd] at h; simp at h
      | ok d1 =>
        rw [hcd] at h
        have h' : copy_children_loop source rest d1 = Except.ok d' := h
        have hrest := ih _ h' hslr hkr
        have hfr := (copy_dataset_frame _ _ _ _ hcd).2.2 k (Ne.symm hk0)
        exact ⟨by rw [hrest.1, hfr.1], by rw [hrest.2, hfr.2]⟩
    · rw [if_neg hds] at h
      cases hift : is_file_type source kv.1 with
      | error e =>
        rw [hift] at h
        have h2 : (Except.error e : Except ODError Entry) = Except.ok d' := h
        simp at h2
      | ok ft =>
        rw [hift] at h
        cases ft with
        | true =>
          have h2 : (match copy_file source d kv.1 none with
              | Except.ok d1 => copy_children_loop source rest d1
              | Except.error e => Except.error e) = Except.ok d' := h
          cases hcf : copy_file source d kv.1 none with
          | error e => rw [hcf] at h2; simp at h2
          | ok d1 =>
            rw [hcf] at h2
            have h' : copy_children_loop source rest d1 = Except.ok d' := h2
            have hrest := ih _ h' hslr hkr
            have hfr := copy_file_frame _ _ _ _ hcf
            have hb : basename kv.1 = kv.1 := basename_no_slash _ hsl0
            constructor
            · rw [hrest.1, hfr.2.2 k (by rw [hb]; exact Ne.symm hk0) (Ne.symm hk0)]
            · rw [hrest.2, hfr.2.1]
        | false =>
          have h2 : (if kv.1 = METADATA_ENTRY then copy_children_loop source rest d
              else match adLookup source.attrs kv.1 with
                | some v => copy_children_loop source rest (d.setAttr [kv.1] v)
                | none => Except.error (ODError.keyError kv.1)) = Except.ok d' := h
          by_cases hkm : kv.1 = METADATA_ENTRY
          · rw [if_pos hkm] at h2
            exact ih _ h2 hslr hkr
          · rw [if_neg hkm] at h2
            cases hga : adLookup source.attrs kv.1 with
            | none => rw [hga] at h2; simp at h2
            | some v =>
              rw [hga] at h2
              have h' : copy_children_loop source rest (d.setAttr [kv.1] v) = Except.ok d' := h2
              have hrest := ih _ h' hslr hkr
              constructor
              · rw [hrest.1, Entry.setAttr_attrs]
                show adLookup (adSet d.attrs kv.1 v) k = adLookup d.attrs k
                exact adLookup_set_ne _ _ _ _ hk0
              · rw [hrest.2, Entry.setAttr_datasets]

/-- The main loop invariant for copy_children: the metadata attribute of
the destination is untouched, and every other key of the item list is
copied to the destination as a dataset, a file, or a plain attribute. -/
theorem copy_children_loop_spec (source : Entry) (l : AttrDict) (d d' : Entry)
    (h : copy_children_loop source l d = Except.ok d')
    (hsl : ∀ kv, kv ∈ l → ('/' : Char) ∉ (Prod.fst (α := String) (β := Value) kv).data)
    (hnd : (adKeys l).Nodup)
    (hmd : is_dataset_type source METADATA_ENTRY = false)
    (hmf : is_file_type source METADATA_ENTRY = Except.ok false) :
    adLookup d'.attrs METADATA_ENTRY = adLookup d.attrs METADATA_ENTRY ∧
    (∀ kv, kv ∈ l → Prod.fst (α := String) (β := Value) kv ≠ METADATA_ENTRY →
      ((is_dataset_type source kv.1 = true →
          adLookup d'.datasets kv.1 = adLookup source.datasets kv.1) ∧
       (is_dataset_type source kv.1 = false → is_file_type source kv.1 = Except.ok true →
          d'.files.contains kv.1 = true) ∧
       (is_dataset_type source kv.1 = false → is_file_type source kv.1 = Except.ok false →
          adLookup d'.attrs kv.1 = adLookup source.attrs kv.1))) := by
  induction l generalizing d with
  | nil =>
    rw [copy_children_loop_nil _ _ _ h]
    exact ⟨rfl, fun kv hm => absurd hm (List.not_mem_nil _)⟩
  | cons kv rest ih =>
    have hsl0 : ('/' : Char) ∉ kv.1.data := hsl kv (List.mem_cons_self _ _)
    have hslr : ∀ kv2, kv2 ∈ rest → ('/' : Char) ∉ (Prod.fst (α := String) (β := Value) kv2).data :=
      fun kv2 hm => hsl kv2 (List.mem_cons_of_mem _ hm)
    have hnd2 : (kv.1 :: adKeys rest).Nodup := hnd
    obtain ⟨hnotin, hndr⟩ := List.nodup_cons.mp hnd2
    have hkr : ∀ kv2, kv2 ∈ rest → Prod.fst (α := String) (β := Value) kv2 ≠ kv.1 := by
      intro kv2 hm hh
      exact hnotin (by rw [← hh]; exact List.mem_map_of_mem Prod.fst hm)
    simp only [copy_children_loop] at h
    by_cases hds : is_dataset_type source kv.1 = true
    · rw [if_pos hds] at h
      cases hcd : copy_dataset source d kv.1 none with
      | error e => rw [hcd] at h; simp at h
      | ok d1 =>
        rw [hcd] at h
        have h' : copy_children_loop source rest d1 = Except.ok d' := h
        have ihres := ih _ h' hslr hndr
        have hkm : kv.1 ≠ METADATA_ENTRY := by
          intro hh
          rw [hh] at hds
          rw [hds] at hmd
          exact absurd hmd (by simp)
        have hfr := copy_dataset_frame _ _ _ _ hcd
        constructor
        · rw [ihres.1, (hfr.2.2 METADATA_ENTRY (Ne.symm hkm)).1]
        · intro kv2 hm2 hne2
          cases List.mem_cons.mp hm2 with
          | inl hh =>
            rw [hh]
            refine ⟨?_, ?_, ?_⟩
            · intro _
              have hpres := copy_children_loop_preserves source rest d1 d' h' hslr kv.1 hkr
              rw [hpres.2, hfr.2.1]
            · intro hds2 _
              rw [hds2] at hds
              exact absurd hds (by simp)
            · intro hds2 _
              rw [hds2] at hds
              exact absurd hds (by simp)
          | inr hh => exact ihres.2 kv2 hh hne2
    · rw [if_neg hds] at h
      cases hift : is_file_type source kv.1 with
      | error e =>
        rw [hift] at h
        have h2 : (Except.error e : Except ODError Entry) = Except.ok d' := h
        simp at h2
      | ok ft =>
        rw [hift] at h
        cases ft with
        | true =>
          have h2 : (match copy_file source d kv.1 none with
              | Except.ok d1 => copy_children_loop source rest d1
              | Except.error e => Except.error e) = Except.ok d' := h
          cases hcf : copy_file source d kv.1 none with
          | error e => rw [hcf] at h2; simp at h2
          | ok d1 =>
            rw [hcf] at h2
            have h' : copy_children_loop source rest d1 = Except.ok d' := h2
            have ihres := ih _ h' hslr hndr
            have hkm : kv.1 ≠ METADATA_ENTRY := by
              intro hh
              rw [hh, hmf] at hift
              simp at hift
            have hfr := copy_file_frame _ _ _ _ hcf
            have hb : basename kv.1 = kv.1 := basename_no_slash _ hsl0
            constructor
            · rw [ihres.1, hfr.2.2 METADATA_ENTRY (by rw [hb]; exact Ne.symm hkm) (Ne.symm hkm)]
            · intro kv2 hm2 hne2
              cases List.mem_cons.mp hm2 with
              | inl hh =>
                rw [hh]
                refine ⟨?_, ?_, ?_⟩
                · intro hds2
                  exact absurd hds2 hds
                · intro _ _
                  refine copy_children_loop_files_mono source rest d1 d' h' kv.1 ?_
                  rw [hfr.1, hb, contains_append_single]
                  simp
                · intro _ hift3
                  rw [hift] at hift3
                  simp at hift3
              | inr hh => exact ihres.2 kv2 hh hne2
        | false =>
          have h2 : (if kv.1 = METADATA_ENTRY then copy_children_loop source rest d
              else match adLookup source.attrs kv.1 with
                | some v => copy_children_loop source rest (d.setAttr [kv.1] v)
                | none => Except.error (ODError.keyError kv.1)) = Except.ok d' := h
          by_cases hkm : kv.1 = METADATA_ENTRY
          · rw [if_pos hkm] at h2
            have ihres := ih _ h2 hslr hndr
            refine ⟨ihres.1, ?_⟩
            intro kv2 hm2 hne2
            cases List.mem_cons.mp hm2 with
            | inl hh => exact absurd (hh ▸ hkm) hne2
            | inr hh => exact ihres.2 kv2 hh hne2
          · rw [if_neg hkm] at h2
            cases hga : adLookup source.attrs kv.1 with
            | none => rw [hga] at h2; simp at h2
            | some v =>
              rw [hga] at h2
              have h' : copy_children_loop source rest (d.setAttr [kv.1] v) = Except.ok d' := h2
              have ihres := ih _ h' hslr hndr
              constructor
              · rw [ihres.1, Entry.setAttr_attrs]
                show adLookup (adSet d.attrs kv.1 v) METADATA_ENTRY
                  = adLookup d.attrs METADATA_ENTRY
                exact adLookup_set_ne _ _ _ _ hkm
              · intro kv2 hm2 hne2
                cases List.mem_cons.mp hm2 with
                | inl hh =>
                  rw [hh]
                  refine ⟨?_, ?_, ?_⟩
                  · intro hds2
                    exact absurd hds2 hds
                  · intro _ hift2
                    rw [hift] at hift2
                    simp at hift2
                  · intro _ _
                    have hpres := copy_children_loop_preserves source rest
                      (d.setAttr [kv.1] v) d' h' hslr kv.1 hkr
                    rw [hpres.1, Entry.setAttr_attrs]
                    show adLookup (adSet d.attrs kv.1 v) kv.1 = adLookup source.attrs kv.1
                    rw [adLookup_set_self, hga]
                | inr hh => exact ihres.2 kv2 hh hne2

/-- A source whose metadata key is itself a dataset name: the dataset
branch of copy_children fires before the metadata check. -/
def srcC10 : Entry := Entry.mk
  [("metadata", Value.dict [("definition", Value.str "dd"), ("unit", Value.str "u")])]
  [] [("metadata", Value.int 5)] [] "s"

def dstC10 : Entry := Entry.mk [("metadata", Value.dict [])] [] [] [] "d"

def resC10 : Entry := Entry.mk
  [("metadata", Value.dict [("definition", Value.str "dd"), ("unit", Value.str "u"),
    ("type", Value.str "dataset")])]
  [] [("metadata", Value.int 5)] [] "d"

/-- Counterexample to C10: when the metadata key of the source is a
dataset name, copy_children copies it as a dataset and thereby rewrites
the destination's metadata attribute. -/
theorem copy_children_metadata_cex :
    copy_children srcC10 dstC10 = Except.ok resC10 ∧
    adLookup dstC10.attrs METADATA_ENTRY = some (Value.dict []) ∧
    ¬(adLookup resC10.attrs METADATA_ENTRY = adLookup dstC10.attrs METADATA_ENTRY) :=
  ⟨rfl, rfl, by simp [resC10, dstC10, adLookup, METADATA_ENTRY]⟩

/-- C10 amended: provided the source's metadata key is not a dataset name
and its file-type test returns False (a dictionary value without file
type), and the source attribute keys are distinct and free of path
separators, a successful copy_children never writes the destination's
metadata attribute, while every other source attribute key is copied to
the destination as a dataset, a file, or a plain attribute according to
its type tests.  A non-dataset key whose value is not a dictionary makes
copy_children raise an AttributeError inside is_file_type instead, so it
never reaches the ok outcome this theorem assumes. -/
theorem copy_children_spec (source dest dest' : Entry)
    (h : copy_children source dest = Except.ok dest')
    (hsl : ∀ kv, kv ∈ source.attrs → ('/' : Char) ∉ (Prod.fst (α := String) (β := Value) kv).data)
    (hnd : (adKeys source.attrs).Nodup)
    (hmd : is_dataset_type source METADATA_ENTRY = false)
    (hmf : is_file_type source METADATA_ENTRY = Except.ok false) :
    adLookup dest'.attrs METADATA_ENTRY = adLookup dest.attrs METADATA_ENTRY ∧
    (∀ kv, kv ∈ source.attrs → Prod.fst (α := String) (β := Value) kv ≠ METADATA_ENTRY →
      ((is_dataset_type source kv.1 = true →
          adLookup dest'.datasets kv.1 = adLookup source.datasets kv.1) ∧
       (is_dataset_type source kv.1 = false → is_file_type source kv.1 = Except.ok true →
          dest'.files.contains kv.1 = true) ∧
       (is_dataset_type source kv.1 = false → is_file_type source kv.1 = Except.ok false →
          adLookup dest'.attrs kv.1 = adLookup source.attrs kv.1))) :=
  copy_children_loop_spec source source.attrs dest dest' h hsl hnd hmd hmf

/-- A source with one dataset key, one file key, one plain
dictionary-valued attribute key and the metadata key, for the C10 witness
(a non-dictionary attribute value would make the program raise inside
is_file_type). -/
def srcC10w : Entry := Entry.mk
  [("metadata", Value.dict [("subject", Value.str "a")]),
   ("ds", Value.dict [("definition", Value.str "d1"), ("unit", Value.str "u1")]),
   ("ff", Value.dict [("type", Value.str "file"), ("definition", Value.str "d2")]),
   ("pl", Value.dict [("value", Value.str "v")])]
  [] [("ds", Value.int 3)] ["ff"] "s"

def dstC10w : Entry := Entry.mk [("metadata", Value.dict [("keep", Value.str "k")])] [] [] [] "d"

/-- Witness for the amended C10 at a concrete source holding a dataset, a
file and a plain attribute alongside metadata. -/
theorem copy_children_spec_witness :
    ∃ d', copy_children srcC10w dstC10w = Except.ok d' ∧
      adLookup d'.attrs METADATA_ENTRY = adLookup dstC10w.attrs METADATA_ENTRY ∧
      adLookup d'.attrs "pl" = adLookup srcC10w.attrs "pl" ∧
      d'.files.contains "ff" = true ∧
      adLookup d'.datasets "ds" = adLookup srcC10w.datasets "ds" := by
  refine ⟨_, rfl, ?_, ?_, ?_, ?_⟩
  · exact (copy_children_spec srcC10w dstC10w _ rfl (by decide) (by decide) rfl rfl).1
  · exact ((copy_children_spec srcC10w dstC10w _ rfl (by decide) (by decide) rfl rfl).2
      ("pl", Value.dict [("value", Value.str "v")])
      (List.mem_cons_of_mem _ (List.mem_cons_of_mem _ (List.mem_cons_of_mem _
        (List.mem_cons_self _ _)))) (by decide)).2.2 rfl rfl
  · exact ((copy_children_spec srcC10w dstC10w _ rfl (by decide) (by decide) rfl rfl).2
      ("ff", Value.dict [("type", Value.str "file"), ("definition", Value.str "d2")])
      (List.mem_cons_of_mem _ (List.mem_cons_of_mem _ (List.mem_cons_self _ _)))
      (by decide)).2.1 rfl rfl
  · exact ((copy_children_spec srcC10w dstC10w _ rfl (by decide) (by decide) rfl rfl).2
      ("ds", Value.dict [("definition", Value.str "d1"), ("unit", Value.str "u1")])
      (List.mem_cons_of_mem _ (List.mem_cons_self _ _)) (by decide)).1 rfl

end ODTools
